import Mathlib

/-!
Verification of the record parsing and temporal-expression resolution engine
of the notes-app repository (src/notes/parser.py), as a shallow embedding.

Conventions of the embedding:
* Python `datetime.date` / `datetime.datetime` become the structures `Date`
  and `DateTime` below; all datetimes are wall-clock values in the single
  configured timezone (America/Los_Angeles), so no tz field is carried.
* Python's dynamically typed values that flow through the parser become the
  inductive `PyVal`; Python exceptions become `Except PyErr`.
* Python strings are modeled as `List Char`; ASCII text is assumed (the
  repository's grammar and record keys are all ASCII).
* Machine arithmetic: Python ints are unbounded, so `Int`/`Nat` are exact.
  Python `//` and `%` on a positive divisor agree with Lean's `Int./` and
  `Int.%` (Euclidean, used only with positive divisors here).
-/

namespace Notes

/-! ## Civil calendar arithmetic (embedding `datetime.date` behavior) -/

structure Date where
  year : Int
  month : Int
  day : Int
deriving DecidableEq

/-- Gregorian leap year, as in `calendar`/`datetime`. -/
def isLeap (y : Int) : Bool :=
  y % 4 == 0 && (y % 100 != 0 || y % 400 == 0)

def daysInMonth (y m : Int) : Int :=
  if m = 2 then (if isLeap y then 29 else 28)
  else if m = 4 ∨ m = 6 ∨ m = 9 ∨ m = 11 then 30
  else 31

/-- Days since 1970-01-01 (civil-from-days algorithm; divisors positive, so
Lean's Euclidean `Int` division is the required floor division). -/
def toRataDie (d : Date) : Int :=
  let y : Int := if d.month ≤ 2 then d.year - 1 else d.year
  let era : Int := y / 400
  let yoe : Int := y - era * 400
  let mp : Int := if d.month > 2 then d.month - 3 else d.month + 9
  let doy : Int := (153 * mp + 2) / 5 + d.day - 1
  let doe : Int := yoe * 365 + yoe / 4 - yoe / 100 + doy
  era * 146097 + doe - 719468

/-- Inverse of `toRataDie` (days-to-civil algorithm). -/
def ofRataDie (z0 : Int) : Date :=
  let z : Int := z0 + 719468
  let era : Int := z / 146097
  let doe : Int := z - era * 146097
  let yoe : Int := (doe - doe / 1460 + doe / 36524 - doe / 146096) / 365
  let y : Int := yoe + era * 400
  let doy : Int := doe - (365 * yoe + yoe / 4 - yoe / 100)
  let mp : Int := (5 * doy + 2) / 153
  let d : Int := doy - (153 * mp + 2) / 5 + 1
  let m : Int := if mp < 10 then mp + 3 else mp - 9
  ⟨if m ≤ 2 then y + 1 else y, m, d⟩

/-- `date.weekday()`: Monday = 0 .. Sunday = 6 (1970-01-01 was a Thursday). -/
def weekday (d : Date) : Int :=
  (toRataDie d + 3) % 7

/-- `date + timedelta(days=n)`. -/
def addDays (d : Date) (n : Int) : Date :=
  ofRataDie (toRataDie d + n)

/-- `relativedelta(months=n)` addition: calendar-aware, clamping the day to
the target month's length. -/
def addMonths (d : Date) (n : Int) : Date :=
  let t : Int := d.year * 12 + (d.month - 1) + n
  let y : Int := t / 12
  let m : Int := t % 12 + 1
  ⟨y, m, min d.day (daysInMonth y m)⟩

/-- `relativedelta(years=n)` addition: calendar-aware, clamping Feb 29. -/
def addYears (d : Date) (n : Int) : Date :=
  ⟨d.year + n, d.month, min d.day (daysInMonth (d.year + n) d.month)⟩

/-- Move a weekend day forward to Monday (pandas `BDay` rolling). -/
def rollFwdBDay (d : Date) : Date :=
  if weekday d = 5 then addDays d 2
  else if weekday d = 6 then addDays d 1
  else d

/-- The next business day strictly after `d`. -/
def nextBDay (d : Date) : Date :=
  rollFwdBDay (addDays d 1)

/-- `d + BDay(n)` for the nonnegative `n` produced by the `\d+` pattern:
advance to the next business day `n` times (weekends skipped, no holiday
calendar); `BDay(0)` rolls a weekend date forward to Monday. -/
def addBDays (d : Date) : Nat → Date
  | 0 => rollFwdBDay d
  | n + 1 => addBDays (nextBDay d) n

/-! ## Time-of-day and datetimes -/

structure Time where
  hour : Int
  minute : Int
  second : Int
  microsecond : Int
deriving DecidableEq

structure DateTime where
  date : Date
  time : Time
deriving DecidableEq

/-- `datetime + timedelta(hours=n)` (whole hours; carries into the date). -/
def dtAddHours (dt : DateTime) (n : Int) : DateTime :=
  let t : Int := toRataDie dt.date * 24 + dt.time.hour + n
  ⟨ofRataDie (t / 24), ⟨t % 24, dt.time.minute, dt.time.second, dt.time.microsecond⟩⟩

/-- `datetime + timedelta(days=n)`. -/
def dtAddDays (dt : DateTime) (n : Int) : DateTime :=
  ⟨addDays dt.date n, dt.time⟩

/-- `datetime + relativedelta(months=n)`. -/
def dtAddMonths (dt : DateTime) (n : Int) : DateTime :=
  ⟨addMonths dt.date n, dt.time⟩

/-- `datetime + relativedelta(years=n)`. -/
def dtAddYears (dt : DateTime) (n : Int) : DateTime :=
  ⟨addYears dt.date n, dt.time⟩

/-- Time-of-day order: lexicographic on (hour, minute, second, microsecond). -/
def timeLe (a b : Time) : Bool :=
  decide (a.hour < b.hour) ||
    (decide (a.hour = b.hour) &&
      (decide (a.minute < b.minute) ||
        (decide (a.minute = b.minute) &&
          (decide (a.second < b.second) ||
            (decide (a.second = b.second) && decide (a.microsecond ≤ b.microsecond))))))

/-- `date <= date`, via the day count (for the valid dates the loader and
the calendar functions produce this coincides with Python's field order). -/
def dateLe (a b : Date) : Bool :=
  decide (toRataDie a ≤ toRataDie b)

/-- `datetime <= datetime` (same timezone, so instant order is date order,
then time-of-day order). -/
def dtLe (a b : DateTime) : Bool :=
  decide (toRataDie a.date < toRataDie b.date) ||
    (decide (toRataDie a.date = toRataDie b.date) && timeLe a.time b.time)

def dtLt (a b : DateTime) : Bool :=
  dtLe a b && !(a == b)

/-! ## The configured timezone

`TIMEZONE` is America/Los_Angeles (the `NOTES_TIMEZONE` default).
`normalizeCreated` below re-reads a naive timestamp as UTC wall clock and
converts it to that zone; the post-2007 US DST rule is used (DST is in
effect from 10:00 UTC on the second Sunday of March until 09:00 UTC on the
first Sunday of November; offsets −7 in DST, −8 outside). -/

def firstSundayOnOrAfter (d : Date) : Date :=
  addDays d ((6 - weekday d) % 7)

def secondSundayMarch (y : Int) : Date :=
  addDays (firstSundayOnOrAfter ⟨y, 3, 1⟩) 7

def firstSundayNov (y : Int) : Date :=
  firstSundayOnOrAfter ⟨y, 11, 1⟩

/-- Convert a UTC wall-clock datetime to America/Los_Angeles. -/
def utcToLA (dt : DateTime) : DateTime :=
  let dstStart : DateTime := ⟨secondSundayMarch dt.date.year, ⟨10, 0, 0, 0⟩⟩
  let dstEnd : DateTime := ⟨firstSundayNov dt.date.year, ⟨9, 0, 0, 0⟩⟩
  if dtLe dstStart dt && dtLt dt dstEnd then dtAddHours dt (-7) else dtAddHours dt (-8)

/-! ## Python values and exceptions -/

/-- The dynamically typed values that flow through the parser: `None`,
booleans, ints, strings (as char lists), dates and datetimes. -/
inductive PyVal where
  | none : PyVal
  | bool : Bool → PyVal
  | int : Int → PyVal
  | str : List Char → PyVal
  | date : Date → PyVal
  | datetime : DateTime → PyVal
deriving DecidableEq

/-- The exceptions the engine can raise, one constructor per raise site. -/
inductive PyErr where
  | unrecognizedFormat : List Char → PyErr  -- line 100: ValueError carrying the string
  | strptimeValueError : PyErr              -- strptime rejecting an invalid date
  | typeError : PyErr                       -- unsupported operand / comparison / call
  | attributeError : PyErr                  -- missing method such as .date()
  | keyError : PyErr                        -- raw_data["event"] or DAYS_OF_WEEK lookup
  | stopIteration : PyErr                   -- missing markdown heading / yaml block
  | unknownFileType : PyErr                 -- line 129: ValueError for an unknown suffix
  | unpackError : PyErr                     -- line 169: destructuring a non-singleton list
  | assertionError : PyErr                  -- line 96: the unreachable assert
deriving DecidableEq

/-- Python truthiness for the values above. -/
def truthy : PyVal → Bool
  | .none => false
  | .bool b => b
  | .int n => n != 0
  | .str s => !s.isEmpty
  | .date _ => true
  | .datetime _ => true

/-- Python `a or b`: the first truthy operand, else the last. -/
def pyOr (a b : PyVal) : PyVal :=
  if truthy a then a else b

/-- `str.lower()` restricted to ASCII (all grammar words are ASCII). -/
def lowerChar (c : Char) : Char :=
  if c = 'A' then 'a' else if c = 'B' then 'b' else if c = 'C' then 'c'
  else if c = 'D' then 'd' else if c = 'E' then 'e' else if c = 'F' then 'f'
  else if c = 'G' then 'g' else if c = 'H' then 'h' else if c = 'I' then 'i'
  else if c = 'J' then 'j' else if c = 'K' then 'k' else if c = 'L' then 'l'
  else if c = 'M' then 'm' else if c = 'N' then 'n' else if c = 'O' then 'o'
  else if c = 'P' then 'p' else if c = 'Q' then 'q' else if c = 'R' then 'r'
  else if c = 'S' then 's' else if c = 'T' then 't' else if c = 'U' then 'u'
  else if c = 'V' then 'v' else if c = 'W' then 'w' else if c = 'X' then 'x'
  else if c = 'Y' then 'y' else if c = 'Z' then 'z' else c

def lower (s : List Char) : List Char :=
  s.map lowerChar

/-! ## The temporal-expression grammar (`parse_datetime_or_delta`) -/

/-- Decimal value of a digit run (`int(...)` on the `\d+` group). -/
def digitsToNat (ds : List Char) : Nat :=
  ds.foldl (fun a c => 10 * a + (c.toNat - 48)) 0

/-- `re.fullmatch(r"\d{2}:\d{2}", s)` (line 65). -/
def matchHHMM : List Char → Bool
  | [a, b, c, d, e] => a.isDigit && b.isDigit && c = ':' && d.isDigit && e.isDigit
  | _ => false

/-- `re.fullmatch(r"\d{4}-\d{2}-\d{2}", s)` (line 68), yielding the three
digit groups when the shape matches. -/
def matchDate : List Char → Option (Nat × Nat × Nat)
  | [y1, y2, y3, y4, s1, m1, m2, s2, d1, d2] =>
    if y1.isDigit && y2.isDigit && y3.isDigit && y4.isDigit && s1 = '-' &&
        m1.isDigit && m2.isDigit && s2 = '-' && d1.isDigit && d2.isDigit then
      some (digitsToNat [y1, y2, y3, y4], digitsToNat [m1, m2], digitsToNat [d1, d2])
    else Option.none
  | _ => Option.none

/-- `re.fullmatch(r"\d{4}-\d{2}-\d{2} \d{2} (am|pm)", s)` (line 70). -/
def matchAmPm : List Char → Bool
  | [y1, y2, y3, y4, s1, m1, m2, s2, d1, d2, sp1, h1, h2, sp2, ap, m] =>
    y1.isDigit && y2.isDigit && y3.isDigit && y4.isDigit && s1 = '-' &&
      m1.isDigit && m2.isDigit && s2 = '-' && d1.isDigit && d2.isDigit &&
      sp1 = ' ' && h1.isDigit && h2.isDigit && sp2 = ' ' &&
      (ap = 'a' || ap = 'p') && m = 'm'
  | _ => false

/-- The keys of `TIME_UNITS`, in dict order. -/
inductive TimeUnit where
  | hour | day | week | year | month | businessDay
deriving DecidableEq

def unitName : TimeUnit → List Char
  | .hour => ['h', 'o', 'u', 'r']
  | .day => ['d', 'a', 'y']
  | .week => ['w', 'e', 'e', 'k']
  | .year => ['y', 'e', 'a', 'r']
  | .month => ['m', 'o', 'n', 't', 'h']
  | .businessDay => ['b', 'u', 's', 'i', 'n', 'e', 's', 's', ' ', 'd', 'a', 'y']

/-- The alternation `(\L<formats>)s?`: one of the unit names, optionally
pluralized, tried in `TIME_UNITS` order. -/
def unitOf (us : List Char) : Option TimeUnit :=
  [TimeUnit.hour, .day, .week, .year, .month, .businessDay].findSome? fun u =>
    if us = unitName u ∨ us = unitName u ++ ['s'] then some u else Option.none

/-- `re.fullmatch(r"(\d+) (\L<formats>)s?", s)` (line 72): a maximal leading
digit run (`\d+` cannot give digits back to the literal space that follows),
a space, then a unit name. -/
def matchUnit (cs : List Char) : Option (Nat × TimeUnit) :=
  if (cs.takeWhile Char.isDigit).isEmpty then Option.none
  else
    match cs.drop (cs.takeWhile Char.isDigit).length with
    | ' ' :: rest => (unitOf rest).map fun u => (digitsToNat (cs.takeWhile Char.isDigit), u)
    | _ => Option.none

/-- `DAYS_OF_WEEK` (Monday = 0, matching `date.weekday()`). -/
def daysOfWeek : List (List Char × Int) :=
  [(['m', 'o', 'n', 'd', 'a', 'y'], 0), (['t', 'u', 'e', 's', 'd', 'a', 'y'], 1),
   (['w', 'e', 'd', 'n', 'e', 's', 'd', 'a', 'y'], 2), (['t', 'h', 'u', 'r', 's', 'd', 'a', 'y'], 3),
   (['f', 'r', 'i', 'd', 'a', 'y'], 4), (['s', 'a', 't', 'u', 'r', 'd', 'a', 'y'], 5),
   (['s', 'u', 'n', 'd', 'a', 'y'], 6)]

def daysOfWeekIdx (w : List Char) : Option Int :=
  (daysOfWeek.find? fun p => p.1 = w).map Prod.snd

/-- `SPECIAL_DAYS`: today/tomorrow/yesterday, the weekday names, and the
`next <weekday>` forms. -/
def specialDays : List (List Char) :=
  ['t', 'o', 'd', 'a', 'y'] :: ['t', 'o', 'm', 'o', 'r', 'r', 'o', 'w'] ::
    ['y', 'e', 's', 't', 'e', 'r', 'd', 'a', 'y'] ::
    daysOfWeek.map Prod.fst ++
      daysOfWeek.map (fun p => ['n', 'e', 'x', 't', ' '] ++ p.1)

/-- `s.split()`: split on space runs, dropping empty pieces. -/
def splitWords (cs : List Char) : List (List Char) :=
  (cs.splitOn ' ').filter fun w => !w.isEmpty

/-- `v + timedelta(days=n)`: defined on dates and datetimes, a `TypeError`
on anything else. -/
def pyAddDays (v : PyVal) (n : Int) : Except PyErr PyVal :=
  match v with
  | .date d => .ok (.date (addDays d n))
  | .datetime dt => .ok (.datetime (dtAddDays dt n))
  | _ => .error .typeError

/-- `ts.date() if hasattr(ts, "date") else ts` (line 79): only datetimes have
a `date` method; every other value is returned as is. -/
def pyDateOrSelf (v : PyVal) : PyVal :=
  match v with
  | .datetime dt => .date dt.date
  | x => x

/-- `v.weekday()`: an `AttributeError` unless `v` is a date. -/
def pyWeekday (v : PyVal) : Except PyErr Int :=
  match v with
  | .date d => .ok (weekday d)
  | .datetime dt => .ok (weekday dt.date)
  | _ => .error .attributeError

/-- `ts + TIME_UNITS[unit](n)` followed by the hour-stripping policy of
lines 74-77: a non-`hour` result with a `.date()` method (a datetime, or the
pandas Timestamp a `BDay` addition yields) is truncated to its date. A date
reference plus `timedelta(hours=n)` gains only the delta's whole-day part
(`timedelta` normalizes `hours=n` to `days = n / 24`, and date addition uses
only the days). -/
def applyUnit (n : Nat) (u : TimeUnit) (ts : PyVal) : Except PyErr PyVal :=
  match u, ts with
  | .hour, .date d => .ok (.date (addDays d ((n : Int) / 24)))
  | .hour, .datetime dt => .ok (.datetime (dtAddHours dt (n : Int)))
  | .day, .date d => .ok (.date (addDays d (n : Int)))
  | .day, .datetime dt => .ok (.date (dtAddDays dt (n : Int)).date)
  | .week, .date d => .ok (.date (addDays d (7 * (n : Int))))
  | .week, .datetime dt => .ok (.date (dtAddDays dt (7 * (n : Int))).date)
  | .year, .date d => .ok (.date (addYears d (n : Int)))
  | .year, .datetime dt => .ok (.date (dtAddYears dt (n : Int)).date)
  | .month, .date d => .ok (.date (addMonths d (n : Int)))
  | .month, .datetime dt => .ok (.date (dtAddMonths dt (n : Int)).date)
  | .businessDay, .date d => .ok (.date (addBDays d n))
  | .businessDay, .datetime dt => .ok (.date (addBDays dt.date n))
  | _, _ => .error .typeError

/-- The `match s.lower().split()` of lines 80-96, with `today` already
computed. The branch is only entered when the lowered string is in
`SPECIAL_DAYS`, so the `DAYS_OF_WEEK` lookups cannot fail; a failed lookup
is modeled as the `KeyError` Python would raise. -/
def specialCase (ws : List (List Char)) (today : PyVal) : Except PyErr PyVal :=
  if ws = [['t', 'o', 'd', 'a', 'y']] then .ok today
  else if ws = [['t', 'o', 'm', 'o', 'r', 'r', 'o', 'w']] then pyAddDays today 1
  else if ws = [['y', 'e', 's', 't', 'e', 'r', 'd', 'a', 'y']] then
    -- line 86: `today - datetime.timedelta(days=-1)`, i.e. today plus one day
    pyAddDays today 1
  else
    match ws with
    | [nxt, day] =>
      if nxt = ['n', 'e', 'x', 't'] then
        match daysOfWeekIdx day with
        | some idx => do
          let w ← pyWeekday today
          let nextMonday ← pyAddDays today (7 - w)
          pyAddDays nextMonday idx
        | Option.none => .error .keyError
      else .error .assertionError
    | [day] =>
      match daysOfWeekIdx day with
      | some idx => do
        let w ← pyWeekday today
        pyAddDays today (idx - w)
      | Option.none => .error .keyError
    | _ => .error .assertionError

/-- `datetime.date(y, m, d)` bounds as enforced by `strptime("%Y-%m-%d")`. -/
def validYMD (y m d : Nat) : Bool :=
  1 ≤ y && 1 ≤ m && m ≤ 12 && 1 ≤ d && (d : Int) ≤ daysInMonth (y : Int) (m : Int)

/-- The string dispatch of `parse_datetime_or_delta` (lines 63-100), for a
nonempty string `cs`. The two `strptime(..., tzinfo=TIMEZONE)` calls on
lines 66 and 71 pass a keyword `strptime` does not accept, so those branches
raise `TypeError` for every matching string. -/
def resolveCore (cs : List Char) (ts : PyVal) : Except PyErr PyVal :=
  if lower cs = ['n', 'e', 'v', 'e', 'r'] then .ok (.date ⟨2100, 1, 1⟩)
  else if matchHHMM cs then .error .typeError
  else
    match matchDate cs with
    | some (y, m, d) =>
      if validYMD y m d then .ok (.date ⟨(y : Int), (m : Int), (d : Int)⟩)
      else .error .strptimeValueError
    | Option.none =>
      if matchAmPm cs then .error .typeError
      else
        match matchUnit cs with
        | some (n, u) => applyUnit n u ts
        | Option.none =>
          if lower cs ∈ specialDays then specialCase (splitWords (lower cs)) (pyDateOrSelf ts)
          else if lower cs = ['t', 'o', 'm', 'o', 'r', 'r', 'o', 'w'] then
            -- line 97: dead code ("tomorrow" is already in SPECIAL_DAYS)
            pyAddDays (pyDateOrSelf ts) 1
          else .error (.unrecognizedFormat cs)

/-- `parse_datetime_or_delta` (lines 57-100): non-strings and the empty
string pass through unchanged; other strings go through the grammar. -/
def parse_datetime_or_delta (s ts : PyVal) : Except PyErr PyVal :=
  match s with
  | .str cs => if cs.isEmpty then .ok (.str cs) else resolveCore cs ts
  | v => .ok v

/-! ## Comparison helpers (`is_date`, `dt_compare`, lines 102-111) -/

/-- `is_date`: a `datetime.date` that is not a `datetime.datetime`. -/
def is_date : PyVal → Bool
  | .date _ => true
  | _ => false

/-- `v.date()`: only datetimes have the method; an `AttributeError`
otherwise. -/
def pyDateMethod (v : PyVal) : Except PyErr PyVal :=
  match v with
  | .datetime dt => .ok (.date dt.date)
  | _ => .error .attributeError

/-- Python `str <= str`: lexicographic on code points. -/
def strLe : List Char → List Char → Bool
  | [], _ => true
  | _ :: _, [] => false
  | x :: xs, y :: ys => if x = y then strLe xs ys else decide (x < y)

/-- Python `<=` on the values that can reach `dt_compare`: dates with dates,
datetimes with datetimes, numbers with numbers, strings with strings;
everything else (including date with datetime) is a `TypeError`. -/
def pyLe (a b : PyVal) : Except PyErr Bool :=
  match a, b with
  | .date x, .date y => .ok (dateLe x y)
  | .datetime x, .datetime y => .ok (dtLe x y)
  | .int x, .int y => .ok (decide (x ≤ y))
  | .bool x, .bool y => .ok (decide ((if x then (1 : Int) else 0) ≤ if y then 1 else 0))
  | .int x, .bool y => .ok (decide (x ≤ if y then 1 else 0))
  | .bool x, .int y => .ok (decide ((if x then (1 : Int) else 0) ≤ y))
  | .str x, .str y => .ok (strLe x y)
  | _, _ => .error .typeError

/-- `dt_compare(d1, d2)` (lines 106-111): when exactly one operand is a
date-only value, the other is truncated to a date first; then `<=`. -/
def dt_compare (d1 d2 : PyVal) : Except PyErr Bool :=
  if is_date d1 && !is_date d2 then do
    let d2' ← pyDateMethod d2
    pyLe d1 d2'
  else if is_date d2 && !is_date d1 then do
    let d1' ← pyDateMethod d1
    pyLe d1' d2
  else pyLe d1 d2

/-! ## Record files and `parse_record`

The markdown/YAML decoding done by the external `commonmark` and
`ruamel.yaml` libraries is abstracted: a file is given by its extracted
pieces. For a markdown file, `heading` is the literal of the first level-1
heading together with the mapping of the last yaml code block; `heading =
none` stands for a file in which that extraction fails (the `next(...)`
calls of lines 121/123 raise `StopIteration`). For a YAML file the mapping
is the whole document and `event` must be a key of it (line 127 raises
`KeyError` otherwise). The filesystem path, and the blake2s-digest
`file_id`, are identity bookkeeping outside the parsing logic and are not
modeled. -/

/-- The raw key-value mapping of a record; a missing key is `PyVal.none`
(what `raw_data.get` returns), except `event`, which is read with `[]` and
therefore distinguishes absence. -/
structure RawData where
  event : Option PyVal := Option.none
  date : PyVal := PyVal.none
  timestamp : PyVal := PyVal.none
  expected_completion : PyVal := PyVal.none
  due : PyVal := PyVal.none
  irrelevant_after : PyVal := PyVal.none
  irrelevant_before : PyVal := PyVal.none
  completed : PyVal := PyVal.none
  completed_at : PyVal := PyVal.none
  tags : Option (List PyVal) := Option.none
  rank_priority : Option Int := Option.none
deriving DecidableEq

inductive FileFormat where
  | md | yaml | other
deriving DecidableEq

structure NoteFile where
  stem : List Char
  format : FileFormat
  heading : Option (List Char) := Option.none
  raw : RawData
deriving DecidableEq

/-- Lines 115-129: dispatch on the suffix and extract `event`. -/
def extractEvent (f : NoteFile) : Except PyErr PyVal :=
  match f.format with
  | .md =>
    match f.heading with
    | some h => .ok (.str h)
    | Option.none => .error .stopIteration
  | .yaml =>
    match f.raw.event with
    | some v => .ok v
    | Option.none => .error .keyError
  | .other => .error .unknownFileType

/-- Lines 131-138: a datetime `created` value was serialized as naive UTC
wall clock; rebuild it from its `timetuple()[:6]` (dropping microseconds)
as UTC and convert to the configured timezone. Non-datetime values pass
through. -/
def normalizeCreated (v : PyVal) : PyVal :=
  match v with
  | .datetime dt =>
    .datetime (utcToLA ⟨dt.date, ⟨dt.time.hour, dt.time.minute, dt.time.second, 0⟩⟩)
  | x => x

/-- Lines 146-155, one iteration of the loop. A truthy raw value equal to
the literal `"==due"` copies the resolved `due`; any other truthy value is
resolved against the anchor; a falsy value is kept as is, except that a
falsy `irrelevant_after` becomes `created + timedelta(days=365)`. -/
def parseIrrelevant (raw due anchor created : PyVal) (isAfter : Bool) :
    Except PyErr PyVal :=
  if truthy raw then
    if raw = .str ['=', '=', 'd', 'u', 'e'] then .ok due
    else parse_datetime_or_delta raw anchor
  else if isAfter then pyAddDays created 365
  else .ok raw

/-- Lines 157-162: `still_relevant` starts true; a truthy bound is compared
with `now` via `dt_compare` and conjoined. -/
def stillRelevant (now : DateTime) (ia ib : PyVal) : Except PyErr Bool :=
  match (if truthy ia then (dt_compare (.datetime now) ia).map (fun c => c && true)
         else .ok true) with
  | .error e => .error e
  | .ok s1 =>
    if truthy ib then (dt_compare ib (.datetime now)).map fun c => c && s1
    else .ok s1

/-- The character class `[0-9T:.-]` of line 169. -/
def tsChar (c : Char) : Bool :=
  c.isDigit || c = 'T' || c = ':' || c = '.' || c = '-'

/-- Position of the last `'-'` in a list, if any. -/
def lastDashIdx (cs : List Char) : Option Nat :=
  match cs with
  | [] => Option.none
  | c :: rest =>
    match lastDashIdx rest with
    | some i => some (i + 1)
    | Option.none => if c = '-' then some 0 else Option.none

/-- The scan of `re.findall(r'[0-9T:.-]+-(.*)', stem)` (line 169): at the
first position from which `[0-9T:.-]+-` can match — a class-char run whose
last `'-'` is not its first character — the group takes the rest of the
string; `(.*)` then consumes to the end so there is at most one match. -/
def findMatch : List Char → Option (List Char)
  | [] => Option.none
  | c :: rest =>
    if tsChar c then
      let run := (c :: rest).takeWhile tsChar
      match lastDashIdx run with
      | some p => if 1 ≤ p then some ((c :: rest).drop (p + 1)) else findMatch rest
      | Option.none => findMatch rest
    else findMatch rest

/-- `[type] = re.findall(...)` (line 169): exactly one match is required;
an empty result makes the destructuring raise `ValueError`. -/
def extractType (stem : List Char) : Except PyErr (List Char) :=
  match findMatch stem with
  | some ty => .ok ty
  | Option.none => .error .unpackError

/-- The parsed record (the `extracts` dict of lines 114-175). -/
structure Record where
  event : PyVal
  created : PyVal
  expected_completion : PyVal
  due : PyVal
  irrelevant_after : PyVal
  irrelevant_before : PyVal
  still_relevant : Bool
  completed : PyVal
  completed_at : PyVal
  tags : List PyVal
  type : List Char
  rank_priority : Int
  raw_data : RawData
deriving DecidableEq

/-- `parse_record` (lines 114-175), with `now` the current LA time (also
standing in for `datetime.date.today()` in the anchor fallback). Effects
happen in source order, so the first failing step's exception is the
record's parse failure. -/
def parse_record (now : DateTime) (f : NoteFile) : Except PyErr Record := do
  let event ← extractEvent f
  let created := normalizeCreated (pyOr f.raw.date f.raw.timestamp)
  let ec ← parse_datetime_or_delta f.raw.expected_completion created
  let due ← parse_datetime_or_delta f.raw.due created
  let anchor := pyOr ec (pyOr due (pyOr created (.date now.date)))
  let ia ← parseIrrelevant f.raw.irrelevant_after due anchor created true
  let ib ← parseIrrelevant f.raw.irrelevant_before due anchor created false
  let sr ← stillRelevant now ia ib
  let completed_at ← parse_datetime_or_delta f.raw.completed_at anchor
  let ty ← extractType f.stem
  .ok { event := event, created := created, expected_completion := ec, due := due,
        irrelevant_after := ia, irrelevant_before := ib, still_relevant := sr,
        completed := f.raw.completed, completed_at := completed_at,
        tags := f.raw.tags.getD [], type := ty,
        rank_priority := f.raw.rank_priority.getD 10000, raw_data := f.raw }

/-- `parsed_records` (lines 185-195): each file is parsed under a per-file
`try/except`; a failure is reported and the worker returns `None`, which
still appears in the yielded results. The pool has a single worker, so
`as_completed` yields in submission order. -/
def parsed_records (now : DateTime) (files : List NoteFile) : List (Option Record) :=
  files.map fun f => (parse_record now f).toOption

/-! ## Concrete data for evaluating the engine at specific inputs -/

def nowW : DateTime := ⟨⟨2022, 6, 1⟩, ⟨12, 0, 0, 0⟩⟩

/-- A minimal well-formed raw mapping: an event and a creation date. -/
def rawW1 : RawData :=
  { event := some (.str ['e']), date := .date ⟨2022, 1, 1⟩ }

def fW1 : NoteFile :=
  { stem := "2022-01-01T00:00:00-task".toList, format := .yaml, raw := rawW1 }

/-- The record `parse_record` produces from `fW1` at `nowW`. -/
def rW1 : Record :=
  { event := .str ['e'], created := .date ⟨2022, 1, 1⟩,
    expected_completion := .none, due := .none,
    irrelevant_after := .date ⟨2023, 1, 1⟩, irrelevant_before := .none,
    still_relevant := true, completed := .none, completed_at := .none,
    tags := [], type := "task".toList, rank_priority := 10000, raw_data := rawW1 }

/-- A mapping with a concrete `due` and the `==due` marker. -/
def rawW2 : RawData :=
  { event := some (.str ['e']), date := .date ⟨2022, 1, 1⟩,
    due := .str "2022-07-01".toList,
    irrelevant_after := .str ['=', '=', 'd', 'u', 'e'] }

def fW2 : NoteFile :=
  { stem := "2022-01-01T00:00:00-task".toList, format := .yaml, raw := rawW2 }

def rW2 : Record :=
  { event := .str ['e'], created := .date ⟨2022, 1, 1⟩,
    expected_completion := .none, due := .date ⟨2022, 7, 1⟩,
    irrelevant_after := .date ⟨2022, 7, 1⟩, irrelevant_before := .none,
    still_relevant := true, completed := .none, completed_at := .none,
    tags := [], type := "task".toList, rank_priority := 10000, raw_data := rawW2 }

/-- The `==due` marker with no `due` value at all. -/
def rawW3 : RawData :=
  { event := some (.str ['e']), date := .date ⟨2022, 1, 1⟩,
    irrelevant_after := .str ['=', '=', 'd', 'u', 'e'] }

def fW3 : NoteFile :=
  { stem := "2022-01-01T00:00:00-task".toList, format := .yaml, raw := rawW3 }

def rW3 : Record :=
  { event := .str ['e'], created := .date ⟨2022, 1, 1⟩,
    expected_completion := .none, due := .none,
    irrelevant_after := .none, irrelevant_before := .none,
    still_relevant := true, completed := .none, completed_at := .none,
    tags := [], type := "task".toList, rank_priority := 10000, raw_data := rawW3 }

/-- A file whose `due` holds a string no grammar rule accepts. -/
def fBad : NoteFile :=
  { stem := "2022-01-02T00:00:00-task".toList, format := .yaml,
    raw := { event := some (.str ['e']), date := .date ⟨2022, 1, 2⟩,
             due := .str "blargh".toList } }

/-- Nine parseable files and one that fails. -/
def fsW : List NoteFile := List.replicate 9 fW1 ++ [fBad]

/-! ## General lemmas about the embedding -/

instance {ε α : Type} [DecidableEq ε] [DecidableEq α] : DecidableEq (Except ε α) := fun x y =>
  match x, y with
  | .error a, .error b =>
    if h : a = b then .isTrue (by rw [h]) else .isFalse (by simp [h])
  | .ok a, .ok b =>
    if h : a = b then .isTrue (by rw [h]) else .isFalse (by simp [h])
  | .error _, .ok _ => .isFalse (by simp)
  | .ok _, .error _ => .isFalse (by simp)

theorem except_bind_ok {α β : Type} (x : Except PyErr α) (f : α → Except PyErr β) (b : β) :
    (x >>= f = Except.ok b) ↔ ∃ a, x = Except.ok a ∧ f a = Except.ok b := by
  cases x with
  | error e =>
    constructor
    · intro h; exact absurd h (by simp [Bind.bind, Except.bind])
    · rintro ⟨a, ha, -⟩; cases ha
  | ok a =>
    constructor
    · intro h; exact ⟨a, rfl, h⟩
    · rintro ⟨a2, ha, hf⟩
      cases ha
      exact hf

theorem lowerChar_of_isDigit {c : Char} (h : c.isDigit = true) : lowerChar c = c := by
  have hne : ∀ u : Char, u.isDigit = false → c ≠ u := by
    intro u hu hcu
    rw [hcu] at h
    rw [h] at hu
    cases hu
  unfold lowerChar
  rw [if_neg (hne 'A' (by decide)), if_neg (hne 'B' (by decide)),
    if_neg (hne 'C' (by decide)), if_neg (hne 'D' (by decide)),
    if_neg (hne 'E' (by decide)), if_neg (hne 'F' (by decide)),
    if_neg (hne 'G' (by decide)), if_neg (hne 'H' (by decide)),
    if_neg (hne 'I' (by decide)), if_neg (hne 'J' (by decide)),
    if_neg (hne 'K' (by decide)), if_neg (hne 'L' (by decide)),
    if_neg (hne 'M' (by decide)), if_neg (hne 'N' (by decide)),
    if_neg (hne 'O' (by decide)), if_neg (hne 'P' (by decide)),
    if_neg (hne 'Q' (by decide)), if_neg (hne 'R' (by decide)),
    if_neg (hne 'S' (by decide)), if_neg (hne 'T' (by decide)),
    if_neg (hne 'U' (by decide)), if_neg (hne 'V' (by decide)),
    if_neg (hne 'W' (by decide)), if_neg (hne 'X' (by decide)),
    if_neg (hne 'Y' (by decide)), if_neg (hne 'Z' (by decide))]

/-- A string accepted by the `HH:MM` shape contains a colon. -/
theorem matchHHMM_colon {cs : List Char} (h : matchHHMM cs = true) : ':' ∈ cs := by
  unfold matchHHMM at h
  split at h
  next a b c d e =>
    simp only [Bool.and_eq_true, decide_eq_true_eq] at h
    have hc : c = ':' := by tauto
    subst hc
    simp
  next => cases h

/-- A string accepted by the `YYYY-MM-DD` shape contains a dash. -/
theorem matchDate_dash {cs : List Char} {x : Nat × Nat × Nat}
    (h : matchDate cs = some x) : '-' ∈ cs := by
  unfold matchDate at h
  split at h
  next y1 y2 y3 y4 s1 m1 m2 s2 d1 d2 =>
    split at h
    next hcond =>
      simp only [Bool.and_eq_true, decide_eq_true_eq] at hcond
      have hd : s1 = '-' := by tauto
      subst hd
      simp
    next => cases h
  next => cases h

/-- A string accepted by the am/pm shape contains a dash. -/
theorem matchAmPm_dash {cs : List Char} (h : matchAmPm cs = true) : '-' ∈ cs := by
  unfold matchAmPm at h
  split at h
  next y1 y2 y3 y4 s1 m1 m2 s2 d1 d2 sp1 h1 h2 sp2 ap m =>
    simp only [Bool.and_eq_true, decide_eq_true_eq] at h
    have hd : s1 = '-' := by tauto
    subst hd
    simp
  next => cases h

/-- A string accepted by the `<digits> <unit>` rule starts with a digit. -/
theorem matchUnit_head {cs : List Char} {x : Nat × TimeUnit}
    (h : matchUnit cs = some x) : ∃ c t, cs = c :: t ∧ c.isDigit = true := by
  unfold matchUnit at h
  cases cs with
  | nil => simp [List.takeWhile] at h
  | cons c t =>
    by_cases hc : c.isDigit = true
    · exact ⟨c, t, rfl, hc⟩
    · simp [List.takeWhile, hc] at h

/-- What a successful `stillRelevant` result means: each truthy bound must
have compared favorably against `now`. -/
theorem stillRelevant_ok_iff {now : DateTime} {ia ib : PyVal} {b : Bool}
    (h : stillRelevant now ia ib = Except.ok b) :
    (b = true ↔
      ((truthy ia = false ∨ dt_compare (PyVal.datetime now) ia = Except.ok true) ∧
        (truthy ib = false ∨ dt_compare ib (PyVal.datetime now) = Except.ok true))) := by
  unfold stillRelevant at h
  cases ha : truthy ia with
  | false =>
    simp only [ha, Bool.false_eq_true, if_false] at h
    cases hb : truthy ib with
    | false =>
      simp only [hb, Bool.false_eq_true, if_false] at h
      cases h
      simp
    | true =>
      simp only [hb, if_true] at h
      cases hcb : dt_compare ib (PyVal.datetime now) with
      | error e => rw [hcb] at h; cases h
      | ok c2 =>
        rw [hcb] at h
        simp only [Except.map] at h
        cases h
        simp
  | true =>
    simp only [ha, if_true] at h
    cases hca : dt_compare (PyVal.datetime now) ia with
    | error e => rw [hca] at h; cases h
    | ok c1 =>
      rw [hca] at h
      simp only [Except.map, Bool.and_true] at h
      cases hb : truthy ib with
      | false =>
        simp only [hb, Bool.false_eq_true, if_false] at h
        cases h
        simp
      | true =>
        simp only [hb, if_true] at h
        cases hcb : dt_compare ib (PyVal.datetime now) with
        | error e => rw [hcb] at h; cases h
        | ok c2 =>
          rw [hcb] at h
          simp only [Except.map] at h
          cases h
          cases c1 <;> cases c2 <;> simp

theorem isEmpty_false_of_ne_nil {l : List Char} (h : l ≠ []) : l.isEmpty = false := by
  cases l with
  | nil => exact absurd rfl h
  | cons c t => rfl

/-! ## The claims -/

/-- C3: for every reference date, `resolve("today", d)` is the reference
date and `resolve("tomorrow", d)` is the next day, but
`resolve("yesterday", d)` is `d + 1 day` as well — line 86 subtracts
`timedelta(days=-1)`, so the code adds one day where the specification
requires `d - 1 day`; at 2022-05-03 it returns 2022-05-04 instead of
2022-05-02. -/
theorem c3_yesterday_adds_a_day :
    (∀ d : Date,
      parse_datetime_or_delta (.str ("today".toList)) (.date d) =
          Except.ok (.date d) ∧
        parse_datetime_or_delta (.str ("tomorrow".toList)) (.date d) =
          Except.ok (.date (addDays d 1)) ∧
        parse_datetime_or_delta (.str ("yesterday".toList)) (.date d) =
          Except.ok (.date (addDays d 1))) ∧
    (∀ dt : DateTime,
      parse_datetime_or_delta (.str ("yesterday".toList)) (.datetime dt) =
        Except.ok (.date (addDays dt.date 1))) ∧
    parse_datetime_or_delta (.str ("yesterday".toList)) (.date ⟨2022, 5, 3⟩) =
      Except.ok (.date ⟨2022, 5, 4⟩) := by
  refine ⟨fun d => ⟨rfl, rfl, rfl⟩, fun dt => rfl, by decide⟩

/-- C7: the `HH:MM` branch never produces a value: line 66 calls
`datetime.strptime` with a `tzinfo` keyword it does not accept, so every
string the `HH:MM` rule matches raises `TypeError`, for every reference,
instead of returning the reference date at that time (the claim expects
2022-05-03 09:30 for the concrete instance below). -/
theorem c7_hhmm_always_raises :
    (∀ (cs : List Char) (ts : PyVal), matchHHMM cs = true →
      parse_datetime_or_delta (.str cs) ts = Except.error .typeError) ∧
    parse_datetime_or_delta (.str ("09:30".toList))
        (.datetime ⟨⟨2022, 5, 3⟩, ⟨0, 0, 0, 0⟩⟩) = Except.error .typeError := by
  refine ⟨?_, by decide⟩
  intro cs ts h
  unfold matchHHMM at h
  split at h
  next a b c d e =>
    simp only [Bool.and_eq_true, decide_eq_true_eq] at h
    have hc : c = ':' := by tauto
    subst hc
    have hnev : lower [a, b, ':', d, e] ≠ ['n', 'e', 'v', 'e', 'r'] := by
      intro heq
      simp only [lower, List.map, List.cons.injEq] at heq
      exact absurd heq.2.2.1 (by decide)
    simp only [parse_datetime_or_delta, List.isEmpty_cons, Bool.false_eq_true, if_false]
    unfold resolveCore
    rw [if_neg hnev]
    have hb : matchHHMM [a, b, ':', d, e] = true := by
      unfold matchHHMM
      simp only [Bool.and_eq_true, decide_eq_true_eq]
      tauto
    rw [hb]
    simp
  next => cases h

theorem c7_hhmm_always_raises_witness :
    parse_datetime_or_delta (.str ("12:59".toList)) (.date ⟨2022, 5, 3⟩) =
      Except.error .typeError :=
  c7_hhmm_always_raises.1 ("12:59".toList) (.date ⟨2022, 5, 3⟩) (by decide)

/-- C5 counterexample: the unit rule is `(\d+) (...)s?`, so a negative
count does not match — `resolve("-1 day", 2022-01-05)` raises instead of
giving 2022-01-04 — and an hour result on a date-only reference is a date,
not a full timestamp: `resolve("5 hours", 2022-01-01)` = 2022-01-01 (a
date). -/
theorem c5_counterexample :
    parse_datetime_or_delta (.str ("-1 day".toList)) (.date ⟨2022, 1, 5⟩) =
      Except.error (.unrecognizedFormat ("-1 day".toList)) ∧
    parse_datetime_or_delta (.str ("5 hours".toList)) (.date ⟨2022, 1, 1⟩) =
      Except.ok (.date ⟨2022, 1, 1⟩) := by
  refine ⟨by decide, by decide⟩

/-- C8 counterexample: matching is not case-insensitive for the regex
rules — `"5 days"` resolves but `"5 DAYS"` is rejected, so differently
cased variants do not always agree. -/
theorem c8_counterexample :
    parse_datetime_or_delta (.str ("5 days".toList)) (.date ⟨2022, 1, 1⟩) =
      Except.ok (.date ⟨2022, 1, 6⟩) ∧
    parse_datetime_or_delta (.str ("5 DAYS".toList)) (.date ⟨2022, 1, 1⟩) =
      Except.error (.unrecognizedFormat ("5 DAYS".toList)) := by
  refine ⟨by decide, by decide⟩

theorem not_mem_append_digits {c : Char} {ds rest : List Char}
    (h1 : ∀ x ∈ ds, x.isDigit = true) (h2 : c ∉ rest) (h3 : c.isDigit = false) :
    c ∉ ds ++ rest := by
  intro hm
  rcases List.mem_append.mp hm with h | h
  · rw [h1 c h] at h3; cases h3
  · exact h2 h

theorem takeWhile_append_digits (ds us : List Char) (h : ∀ c ∈ ds, c.isDigit = true) :
    (ds ++ ' ' :: us).takeWhile Char.isDigit = ds ∧
      (ds ++ ' ' :: us).drop ds.length = ' ' :: us := by
  induction ds with
  | nil => exact ⟨rfl, rfl⟩
  | cons c t ih =>
    obtain ⟨ih1, ih2⟩ := ih fun x hx => h x (List.mem_cons_of_mem _ hx)
    refine ⟨?_, ?_⟩
    · simp only [List.cons_append, List.takeWhile, h c (List.mem_cons_self _ _),
        List.append_eq, ih1]
    · simp

/-- When a string avoids the earlier rules and the unit pattern accepts it,
`resolve` is exactly the unit addition of lines 73-77. -/
theorem resolveCore_unit {cs : List Char} {n : Nat} {u : TimeUnit} (ts : PyVal)
    (hnev : lower cs ≠ ['n', 'e', 'v', 'e', 'r'])
    (hcol : ':' ∉ cs) (hdash : '-' ∉ cs)
    (hmu : matchUnit cs = some (n, u)) :
    parse_datetime_or_delta (.str cs) ts = applyUnit n u ts := by
  have hne : cs ≠ [] := by
    obtain ⟨c, t, h, -⟩ := matchUnit_head hmu
    rw [h]
    simp
  have hmm1 : matchHHMM cs = false := by
    cases hb : matchHHMM cs with
    | false => rfl
    | true => exact absurd (matchHHMM_colon hb) hcol
  have hmd1 : matchDate cs = Option.none := by
    cases hb : matchDate cs with
    | none => rfl
    | some x => exact absurd (matchDate_dash hb) hdash
  have hap1 : matchAmPm cs = false := by
    cases hb : matchAmPm cs with
    | false => rfl
    | true => exact absurd (matchAmPm_dash hb) hdash
  simp only [parse_datetime_or_delta]
  rw [isEmpty_false_of_ne_nil hne]
  simp only [Bool.false_eq_true, if_false]
  unfold resolveCore
  rw [if_neg hnev]
  simp only [hmm1, hmd1, hap1, hmu, Bool.false_eq_true, if_false]

/-- Evaluation of the unit pattern on a well-formed `<digits> <unit>`. -/
theorem matchUnit_eval {ds us : List Char} {u : TimeUnit} (hne : ds ≠ [])
    (hdig : ∀ c ∈ ds, c.isDigit = true) (huo : unitOf us = some u) :
    matchUnit (ds ++ ' ' :: us) = some (digitsToNat ds, u) := by
  obtain ⟨htw, hdr⟩ := takeWhile_append_digits ds us hdig
  unfold matchUnit
  rw [htw, hdr, isEmpty_false_of_ne_nil hne]
  simp only [Bool.false_eq_true, if_false, huo, Option.map]

/-- C5 (amended): for every count written as a nonempty digit string (the
rule's pattern is `\d+`, so only nonnegative counts match), unit in
{hour, day, week, month, year, business day} with optional plural, and any
reference, `resolve("<n> <unit>", ts)` performs exactly the unit addition
with the hour-stripping policy of lines 74-77 (`applyUnit`): an hour count
keeps a datetime reference a full timestamp, every other unit yields a
date (a date reference stays a date, a datetime result is truncated); in
particular `resolve("5 days", 2022-01-01)` = 2022-01-06 as a date. -/
theorem c5_unit_rule :
    (∀ (ds us : List Char) (n : Nat) (u : TimeUnit) (ts : PyVal),
      ds ≠ [] → (∀ c ∈ ds, c.isDigit = true) → digitsToNat ds = n →
      (us = unitName u ∨ us = unitName u ++ ['s']) →
      parse_datetime_or_delta (.str (ds ++ ' ' :: us)) ts = applyUnit n u ts) ∧
    (∀ (dt : DateTime) (k : Nat),
      applyUnit k .hour (.datetime dt) = Except.ok (.datetime (dtAddHours dt (k : Int)))) ∧
    (∀ (d : Date) (k : Nat),
      applyUnit k .day (.date d) = Except.ok (.date (addDays d (k : Int)))) ∧
    (∀ (dt : DateTime) (k : Nat),
      applyUnit k .day (.datetime dt) = Except.ok (.date (addDays dt.date (k : Int)))) ∧
    parse_datetime_or_delta (.str ("5 days".toList)) (.date ⟨2022, 1, 1⟩) =
      Except.ok (.date ⟨2022, 1, 6⟩) := by
  refine ⟨?_, fun dt k => rfl, fun d k => rfl, fun dt k => rfl, by decide⟩
  intro ds us n u ts hne hdig hn hus
  subst hn
  obtain ⟨c, dtl, rfl⟩ : ∃ c t, ds = c :: t := by
    cases ds with
    | nil => exact absurd rfl hne
    | cons c t => exact ⟨c, t, rfl⟩
  have hcd : c.isDigit = true := hdig c (List.mem_cons_self _ _)
  have hnev : lower ((c :: dtl) ++ ' ' :: us) ≠ ['n', 'e', 'v', 'e', 'r'] := by
    intro hcontra
    have h1 : lowerChar c = 'n' := by
      have h0 : lower ((c :: dtl) ++ ' ' :: us) = lowerChar c :: lower (dtl ++ ' ' :: us) := rfl
      rw [h0] at hcontra
      simp only [List.cons.injEq] at hcontra
      exact hcontra.1
    rw [lowerChar_of_isDigit hcd] at h1
    rw [h1] at hcd
    cases hcd
  rcases hus with rfl | rfl <;> cases u <;>
    exact resolveCore_unit ts hnev
      (not_mem_append_digits hdig (by decide) (by decide))
      (not_mem_append_digits hdig (by decide) (by decide))
      (matchUnit_eval (by simp) hdig (by decide))

/-- C6: a bare weekday name resolves to
`reference + (target_weekday - reference_weekday)` days inside the
reference (Monday-start) week — possibly before the reference — and
`"next " + weekday` resolves to next Monday (`reference + (7 -
reference_weekday)` days) plus the target index; pinned by the two
examples from 2022-05-03 (a Tuesday). -/
theorem c6_weekday_resolution :
    (∀ (w : List Char) (idx : Int) (d : Date), (w, idx) ∈ daysOfWeek →
      parse_datetime_or_delta (.str w) (.date d) =
        Except.ok (.date (addDays d (idx - weekday d))) ∧
      parse_datetime_or_delta (.str (['n', 'e', 'x', 't', ' '] ++ w)) (.date d) =
        Except.ok (.date (addDays (addDays d (7 - weekday d)) idx))) ∧
    parse_datetime_or_delta (.str ("thursday".toList)) (.date ⟨2022, 5, 3⟩) =
      Except.ok (.date ⟨2022, 5, 5⟩) ∧
    parse_datetime_or_delta (.str ("next thursday".toList)) (.date ⟨2022, 5, 3⟩) =
      Except.ok (.date ⟨2022, 5, 12⟩) := by
  refine ⟨?_, by decide, by decide⟩
  intro w idx d hmem
  simp only [daysOfWeek, List.mem_cons, List.not_mem_nil, or_false, Prod.mk.injEq] at hmem
  rcases hmem with ⟨rfl, rfl⟩ | ⟨rfl, rfl⟩ | ⟨rfl, rfl⟩ | ⟨rfl, rfl⟩ | ⟨rfl, rfl⟩ |
    ⟨rfl, rfl⟩ | ⟨rfl, rfl⟩ <;>
    exact ⟨rfl, rfl⟩

/-- C8 (amended): grammar matching in `resolve` is exact full-string with
the rules tried in a fixed precedence order, but only the `"never"` rule
and the special-day rules are case-insensitive: whenever the lowercased
input is `"never"` or a special-day phrase, the input resolves exactly as
its lowercase form does. (The regex rules — `HH:MM`, dates, am/pm, and
`<n> <unit>` — match literally, see the counterexample.) -/
theorem c8_special_rules_case_insensitive :
    ∀ (s : List Char) (ts : PyVal),
      (lower s = ['n', 'e', 'v', 'e', 'r'] ∨ lower s ∈ specialDays) →
      parse_datetime_or_delta (.str s) ts = parse_datetime_or_delta (.str (lower s)) ts := by
  intro s ts hmem
  have hall : ∀ w ∈ (['n', 'e', 'v', 'e', 'r'] :: specialDays),
      lower w = w ∧ ':' ∉ w ∧ '-' ∉ w ∧ w ≠ [] ∧ w.headI.isDigit = false := by decide
  have hmem' : lower s ∈ (['n', 'e', 'v', 'e', 'r'] :: specialDays) := by
    rcases hmem with h | h
    · rw [h]; exact List.mem_cons_self _ _
    · exact List.mem_cons_of_mem _ h
  obtain ⟨hlow, hcol, hdash, hnil, hhead⟩ := hall _ hmem'
  have hsnil : s ≠ [] := by
    intro h
    rw [h] at hnil
    exact hnil rfl
  have lcolon : lowerChar ':' = ':' := by decide
  have ldash : lowerChar '-' = '-' := by decide
  -- none of the regex rules can accept `s` or its lowercase form
  have hmm1 : matchHHMM s = false := by
    cases hb : matchHHMM s with
    | false => rfl
    | true =>
      have h1 : ':' ∈ lower s := by
        have := List.mem_map_of_mem lowerChar (matchHHMM_colon hb)
        rw [lcolon] at this
        exact this
      exact absurd h1 hcol
  have hmm2 : matchHHMM (lower s) = false := by
    cases hb : matchHHMM (lower s) with
    | false => rfl
    | true => exact absurd (matchHHMM_colon hb) hcol
  have hmd1 : matchDate s = Option.none := by
    cases hb : matchDate s with
    | none => rfl
    | some x =>
      have h1 : '-' ∈ lower s := by
        have := List.mem_map_of_mem lowerChar (matchDate_dash hb)
        rw [ldash] at this
        exact this
      exact absurd h1 hdash
  have hmd2 : matchDate (lower s) = Option.none := by
    cases hb : matchDate (lower s) with
    | none => rfl
    | some x => exact absurd (matchDate_dash hb) hdash
  have hap1 : matchAmPm s = false := by
    cases hb : matchAmPm s with
    | false => rfl
    | true =>
      have h1 : '-' ∈ lower s := by
        have := List.mem_map_of_mem lowerChar (matchAmPm_dash hb)
        rw [ldash] at this
        exact this
      exact absurd h1 hdash
  have hap2 : matchAmPm (lower s) = false := by
    cases hb : matchAmPm (lower s) with
    | false => rfl
    | true => exact absurd (matchAmPm_dash hb) hdash
  have hmu1 : matchUnit s = Option.none := by
    cases hb : matchUnit s with
    | none => rfl
    | some x =>
      obtain ⟨c, t, hst, hcd⟩ := matchUnit_head hb
      have hh : (lower s).headI = lowerChar c := by rw [hst]; rfl
      rw [hh, lowerChar_of_isDigit hcd, hcd] at hhead
      cases hhead
  have hmu2 : matchUnit (lower s) = Option.none := by
    cases hb : matchUnit (lower s) with
    | none => rfl
    | some x =>
      obtain ⟨c, t, hst, hcd⟩ := matchUnit_head hb
      rw [hst] at hhead
      simp only [List.headI] at hhead
      rw [hcd] at hhead
      cases hhead
  simp only [parse_datetime_or_delta]
  rw [isEmpty_false_of_ne_nil hsnil, isEmpty_false_of_ne_nil hnil]
  simp only [Bool.false_eq_true, if_false]
  unfold resolveCore
  simp only [hlow, hmm1, hmm2, hmd1, hmd2, hap1, hap2, hmu1, hmu2,
    Bool.false_eq_true, if_false]
  by_cases hnev : lower s = ['n', 'e', 'v', 'e', 'r']
  · simp [hnev]
  · rw [if_neg hnev, if_neg hnev]
    by_cases hsp : lower s ∈ specialDays
    · rw [if_pos hsp, if_pos hsp]
    · rcases hmem with h | h
      · exact absurd h hnev
      · exact absurd h hsp

theorem bind_ok_l {α β : Type} (a : α) (f : α → Except PyErr β) :
    (Except.ok a >>= f) = f a := rfl

theorem bind_error_l {α β : Type} (e : PyErr) (f : α → Except PyErr β) :
    ((Except.error e : Except PyErr α) >>= f) = Except.error e := rfl

/-- C1: for every successfully parsed record, `still_relevant` holds
exactly when each truthy relevance bound passes its `dt_compare` test
against `now`: no bound (a falsy `irrelevant_after`/`irrelevant_before`)
imposes no constraint, a present bound requires `now <= irrelevant_after`
resp. `irrelevant_before <= now`, where `dt_compare` truncates the
timestamp to a date whenever exactly one side is date-only. -/
theorem c1_still_relevant :
    ∀ (now : DateTime) (f : NoteFile) (r : Record),
      parse_record now f = Except.ok r →
      (r.still_relevant = true ↔
        ((truthy r.irrelevant_after = false ∨
            dt_compare (.datetime now) r.irrelevant_after = Except.ok true) ∧
          (truthy r.irrelevant_before = false ∨
            dt_compare r.irrelevant_before (.datetime now) = Except.ok true))) := by
  intro now f r h
  simp only [parse_record, except_bind_ok, Except.ok.injEq] at h
  obtain ⟨event, hev, ec, hec, due, hdue, ia, hia, ib, hib, sr, hsr, ca, hca, ty, hty, hr⟩ := h
  subst hr
  exact stillRelevant_ok_iff hsr

/-- C4: for a successfully parsed record with no raw `irrelevant_after`
value, the derived `irrelevant_after` is `created + timedelta(days=365)`
exactly; and when the raw value is the literal `"==due"`, the derived
value is the resolved `due`. -/
theorem c4_irrelevant_after_default :
    ∀ (now : DateTime) (f : NoteFile) (r : Record),
      parse_record now f = Except.ok r →
      (f.raw.irrelevant_after = PyVal.none →
        pyAddDays r.created 365 = Except.ok r.irrelevant_after) ∧
      (f.raw.irrelevant_after = PyVal.str ['=', '=', 'd', 'u', 'e'] →
        r.irrelevant_after = r.due) := by
  intro now f r h
  simp only [parse_record, except_bind_ok, Except.ok.injEq] at h
  obtain ⟨event, hev, ec, hec, due, hdue, ia, hia, ib, hib, sr, hsr, ca, hca, ty, hty, hr⟩ := h
  subst hr
  constructor
  · intro habsent
    rw [habsent] at hia
    simp only [parseIrrelevant, truthy, Bool.false_eq_true, if_false, if_true] at hia
    exact hia
  · intro hdueTok
    rw [hdueTok] at hia
    simp only [parseIrrelevant, truthy] at hia
    simp only [List.isEmpty_cons, Bool.not_false, if_true, if_pos rfl] at hia
    exact (Except.ok.injEq _ _).mp hia |>.symm ▸ rfl

/-- C10: a record whose raw `irrelevant_after` is `"==due"` while `due` is
absent ends up with no `irrelevant_after` at all — the `created + 365
days` default is not applied — and `still_relevant` is then constrained
only by `irrelevant_before`. -/
theorem c10_due_token_with_absent_due :
    ∀ (now : DateTime) (f : NoteFile) (r : Record),
      parse_record now f = Except.ok r →
      f.raw.irrelevant_after = PyVal.str ['=', '=', 'd', 'u', 'e'] →
      f.raw.due = PyVal.none →
      r.irrelevant_after = PyVal.none ∧
      (r.still_relevant = true ↔
        (truthy r.irrelevant_before = false ∨
          dt_compare r.irrelevant_before (.datetime now) = Except.ok true)) := by
  intro now f r h hdueTok hnodue
  simp only [parse_record, except_bind_ok, Except.ok.injEq] at h
  obtain ⟨event, hev, ec, hec, due, hdue, ia, hia, ib, hib, sr, hsr, ca, hca, ty, hty, hr⟩ := h
  subst hr
  rw [hnodue] at hdue
  simp only [parse_datetime_or_delta] at hdue
  rw [hdueTok] at hia
  simp only [parseIrrelevant, truthy] at hia
  simp only [List.isEmpty_cons, Bool.not_false, if_true, if_pos rfl] at hia
  have hduev : due = PyVal.none := by
    cases hdue
    rfl
  have hiav : ia = PyVal.none := by
    rw [hduev] at hia
    cases hia
    rfl
  subst hiav
  refine ⟨rfl, ?_⟩
  have hiff := stillRelevant_ok_iff hsr
  simpa only [truthy, true_or, true_and] using hiff

theorem length_filterMap_eq_countP {α β : Type} (g : α → Option β) (l : List α) :
    (l.filterMap g).length = l.countP fun a => (g a).isSome := by
  induction l with
  | nil => rfl
  | cons a t ih =>
    cases hg : g a <;>
      simp [List.filterMap_cons, hg, List.countP_cons, ih]

theorem countP_none_add_some {α β : Type} (g : α → Option β) (l : List α) :
    (l.countP fun a => (g a).isNone) + (l.countP fun a => (g a).isSome) = l.length := by
  induction l with
  | nil => rfl
  | cons a t ih =>
    cases hg : g a <;>
      simp [List.countP_cons, hg, ← ih] <;> omega

/-- C2: when nine of ten files parse successfully and one fails, the bulk
parse still processes every file: the produced values are exactly the nine
parsed records (in submission order) plus a single `none`, the reported
per-file failure. The failing file neither aborts nor hides the others. -/
theorem c2_bulk_parse_isolation :
    ∀ (now : DateTime) (fs : List NoteFile),
      fs.length = 10 →
      (fs.countP fun f => (parse_record now f).toOption.isSome) = 9 →
      (parsed_records now fs).filterMap id =
          fs.filterMap (fun f => (parse_record now f).toOption) ∧
        ((parsed_records now fs).filterMap id).length = 9 ∧
        ((parsed_records now fs).countP fun o => o.isNone) = 1 := by
  intro now fs hlen hcnt
  have hmap : (parsed_records now fs).filterMap id =
      fs.filterMap fun f => (parse_record now f).toOption := by
    unfold parsed_records
    rw [List.filterMap_map]
    rfl
  refine ⟨hmap, ?_, ?_⟩
  · rw [hmap, length_filterMap_eq_countP, hcnt]
  · unfold parsed_records
    rw [List.countP_map]
    have hsum := countP_none_add_some (fun f => (parse_record now f).toOption) fs
    rw [hcnt, hlen] at hsum
    have : (fs.countP fun f => (parse_record now f).toOption.isNone) = 1 := by omega
    rw [← this]
    rfl

/-- C9: a nonempty string rejected by every grammar rule makes `resolve`
fail with the unrecognized-format error carrying that string; a record
whose `due` field holds such a string fails to parse with that same error,
and the bulk parse reports the file as a failure (a `none` entry) instead
of silently skipping it. -/
theorem c9_unrecognized_propagates :
    ∀ (cs : List Char) (ts : PyVal) (now : DateTime) (f : NoteFile) (ev : PyVal),
      cs ≠ [] →
      lower cs ≠ ['n', 'e', 'v', 'e', 'r'] →
      matchHHMM cs = false →
      matchDate cs = Option.none →
      matchAmPm cs = false →
      matchUnit cs = Option.none →
      lower cs ∉ specialDays →
      extractEvent f = Except.ok ev →
      f.raw.expected_completion = PyVal.none →
      f.raw.due = PyVal.str cs →
      parse_datetime_or_delta (.str cs) ts = Except.error (.unrecognizedFormat cs) ∧
        parse_record now f = Except.error (.unrecognizedFormat cs) ∧
        parsed_records now [f] = [Option.none] := by
  intro cs ts now f ev hne hnev hmm hmd hap hmu hsp hev hexp hdue
  have htom : lower cs ≠ ['t', 'o', 'm', 'o', 'r', 'r', 'o', 'w'] := by
    intro h
    exact hsp (by rw [h]; decide)
  have hres : ∀ t : PyVal,
      parse_datetime_or_delta (.str cs) t = Except.error (.unrecognizedFormat cs) := by
    intro t
    simp only [parse_datetime_or_delta]
    rw [isEmpty_false_of_ne_nil hne]
    simp only [Bool.false_eq_true, if_false]
    unfold resolveCore
    rw [if_neg hnev]
    simp only [hmm, hmd, hap, hmu, Bool.false_eq_true, if_false]
    rw [if_neg hsp, if_neg htom]
  have hnone : ∀ t : PyVal, parse_datetime_or_delta PyVal.none t = Except.ok PyVal.none :=
    fun t => rfl
  have hrec : parse_record now f = Except.error (.unrecognizedFormat cs) := by
    unfold parse_record
    rw [hev, bind_ok_l, hexp, hdue]
    dsimp only
    rw [hnone, bind_ok_l, hres, bind_error_l]
  refine ⟨hres ts, hrec, ?_⟩
  simp [parsed_records, hrec, Except.toOption]

/-! ## Witnesses: the claim theorems applied at concrete inputs -/

theorem c1_still_relevant_witness :
    rW1.still_relevant = true ↔
      ((truthy rW1.irrelevant_after = false ∨
          dt_compare (.datetime nowW) rW1.irrelevant_after = Except.ok true) ∧
        (truthy rW1.irrelevant_before = false ∨
          dt_compare rW1.irrelevant_before (.datetime nowW) = Except.ok true)) :=
  c1_still_relevant nowW fW1 rW1 (by decide)

theorem c2_bulk_parse_isolation_witness :
    (parsed_records nowW fsW).filterMap id =
        fsW.filterMap (fun f => (parse_record nowW f).toOption) ∧
      ((parsed_records nowW fsW).filterMap id).length = 9 ∧
      ((parsed_records nowW fsW).countP fun o => o.isNone) = 1 :=
  c2_bulk_parse_isolation nowW fsW (by decide) (by decide)

theorem c4_irrelevant_after_default_witness :
    pyAddDays rW1.created 365 = Except.ok rW1.irrelevant_after ∧
      rW2.irrelevant_after = rW2.due :=
  ⟨(c4_irrelevant_after_default nowW fW1 rW1 (by decide)).1 rfl,
    (c4_irrelevant_after_default nowW fW2 rW2 (by decide)).2 rfl⟩

theorem c5_unit_rule_witness :
    parse_datetime_or_delta (.str (['7'] ++ ' ' :: unitName TimeUnit.week))
        (.date ⟨2022, 1, 1⟩) =
      applyUnit 7 TimeUnit.week (.date ⟨2022, 1, 1⟩) :=
  c5_unit_rule.1 ['7'] (unitName TimeUnit.week) 7 TimeUnit.week (.date ⟨2022, 1, 1⟩)
    (by decide) (by decide) (by decide) (Or.inl rfl)

theorem c6_weekday_resolution_witness :
    parse_datetime_or_delta (.str "friday".toList) (.date ⟨2022, 5, 3⟩) =
        Except.ok (.date (addDays ⟨2022, 5, 3⟩ (4 - weekday ⟨2022, 5, 3⟩))) ∧
      parse_datetime_or_delta (.str (['n', 'e', 'x', 't', ' '] ++ "friday".toList))
          (.date ⟨2022, 5, 3⟩) =
        Except.ok (.date (addDays (addDays ⟨2022, 5, 3⟩ (7 - weekday ⟨2022, 5, 3⟩)) 4)) :=
  c6_weekday_resolution.1 "friday".toList 4 ⟨2022, 5, 3⟩ (by decide)

theorem c8_special_rules_case_insensitive_witness :
    parse_datetime_or_delta (.str "Next Thursday".toList) (.date ⟨2022, 5, 3⟩) =
      parse_datetime_or_delta (.str (lower "Next Thursday".toList)) (.date ⟨2022, 5, 3⟩) :=
  c8_special_rules_case_insensitive "Next Thursday".toList (.date ⟨2022, 5, 3⟩) (by decide)

theorem c9_unrecognized_propagates_witness :
    parse_datetime_or_delta (.str "blargh".toList) (.date ⟨2022, 1, 1⟩) =
        Except.error (.unrecognizedFormat "blargh".toList) ∧
      parse_record nowW fBad = Except.error (.unrecognizedFormat "blargh".toList) ∧
      parsed_records nowW [fBad] = [Option.none] :=
  c9_unrecognized_propagates "blargh".toList (.date ⟨2022, 1, 1⟩) nowW fBad (.str ['e'])
    (by decide) (by decide) (by decide) (by decide) (by decide) (by decide) (by decide)
    rfl rfl rfl

theorem c10_due_token_with_absent_due_witness :
    rW3.irrelevant_after = PyVal.none ∧
      (rW3.still_relevant = true ↔
        (truthy rW3.irrelevant_before = false ∨
          dt_compare rW3.irrelevant_before (.datetime nowW) = Except.ok true)) :=
  c10_due_token_with_absent_due nowW fW3 rW3 (by decide) rfl rfl

end Notes
